import Mathlib

/-!
Verification of the deployment-service repository (Go) against its
natural-language specification.  The Go sources are shallowly embedded:
pure functions become Lean functions, filesystem / git / subprocess
effects become explicit state passing over small state records, and
fallible Go code returns `Except` / `Option`.  Machine integers are
modelled as `Nat` (no overflow is relevant to any claim).
-/

namespace DeploymentService

/-! ## Character and digit utilities shared by the regex embeddings -/

/-- `strings.HasPrefix`, computed on the underlying character lists so
that proofs can evaluate it by kernel reduction. -/
def strStartsWith (s t : String) : Bool :=
  t.data.isPrefixOf s.data

/-- Drop the first `n` characters of a string. -/
def strDrop (s : String) (n : Nat) : String :=
  ⟨s.data.drop n⟩

/-- Digits of a decimal numeral to its value, as `strconv.ParseUint` does
(leading zeros permitted). -/
def digitsToNat (ds : List Char) : Nat :=
  ds.foldl (fun n c => n * 10 + (c.toNat - '0'.toNat)) 0

/-- Consume a maximal nonempty run of ASCII digits (`[0-9]+`); return its
value and the remainder, or `none` when no digit starts the input. -/
def chompNumV (cs : List Char) : Option (Nat × List Char) :=
  match cs with
  | [] => none
  | c :: _ =>
    if c.isDigit then some (digitsToNat (cs.takeWhile Char.isDigit), cs.dropWhile Char.isDigit)
    else none

/-- Split a character list into groups at a separator (the separator is
dropped; `n` separators yield `n + 1` groups, possibly empty). -/
def splitGroups (sep : Char) (cs : List Char) : List (List Char) :=
  cs.foldr (fun c acc =>
    if c == sep then [] :: acc
    else match acc with
      | g :: gs => (c :: g) :: gs
      | [] => [[c]]) [[]]

/-! ## Masterminds/semver v3 — the library used by the Go code

`semver.NewVersion` accepts exactly
`^v?([0-9]+)(\.[0-9]+)?(\.[0-9]+)?(-pre)?(\+meta)?$` where the pre-release
and metadata parts are nonempty dot-separated groups over `[0-9A-Za-z-]`.
The embedding below parses that grammar directly. -/

/-- The semantic content of a parsed `semver.Version` that the claims
need: the three release numbers. -/
structure Semver where
  major : Nat
  minor : Nat
  patch : Nat
deriving DecidableEq, Repr

/-- A character of the pre-release / build-metadata class `[0-9A-Za-z-]`. -/
def isIdentChar (c : Char) : Bool :=
  c.isDigit || c.isAlpha || c == '-'

/-- Nonempty dot-separated groups, each a nonempty run of `[0-9A-Za-z-]`. -/
def validGroups (cs : List Char) : Bool :=
  !cs.isEmpty && (splitGroups '.' cs).all (fun g => !g.isEmpty && g.all isIdentChar)

/-- The `(-pre)?(\+meta)?$` tail of the `NewVersion` grammar. -/
def suffixPart (cs : List Char) : Bool :=
  match cs with
  | [] => true
  | '-' :: r =>
    let seg := r.takeWhile (fun c => c != '+')
    let rest := r.dropWhile (fun c => c != '+')
    validGroups seg &&
      (match rest with
       | [] => true
       | '+' :: m => validGroups m
       | _ => false)
  | '+' :: m => validGroups m
  | _ => false

/-- `2^64`: the version components are `uint64` fields in the library;
`strconv.ParseUint(_, 10, 64)` fails on any numeral of value `≥ 2^64`,
and the increment operations wrap modulo `2^64`. -/
def uint64Size : Nat := 18446744073709551616

/-- Core of `semver.NewVersion`: `([0-9]+)(\.[0-9]+)?(\.[0-9]+)?` followed
by `suffixPart`; omitted minor/patch components default to `0`.  Each
numeral must fit `strconv.ParseUint`'s 64-bit range or the parse fails
with a range error. -/
def lenCore (cs : List Char) : Option Semver :=
  match chompNumV cs with
  | none => none
  | some (maj, r) =>
    if maj < uint64Size then
      match r with
      | '.' :: r1 =>
        match chompNumV r1 with
        | none => none
        | some (minv, r2) =>
          if minv < uint64Size then
            match r2 with
            | '.' :: r3 =>
              match chompNumV r3 with
              | none => none
              | some (pat, r4) =>
                if pat < uint64Size then
                  if suffixPart r4 then some ⟨maj, minv, pat⟩ else none
                else none
            | _ => if suffixPart r2 then some ⟨maj, minv, 0⟩ else none
          else none
      | _ => if suffixPart r then some ⟨maj, 0, 0⟩ else none
    else none

/-- `semver.NewVersion` on a string: optional leading `v`, then `lenCore`.
`none` models the `ErrInvalidSemVer` return. -/
def semverNewVersion (s : String) : Option Semver :=
  match s.data with
  | [] => none
  | c :: rest => if c == 'v' then lenCore rest else lenCore s.data

/-- Whether `semver.NewVersion` succeeds — the recognition rule the
pipeline's `shouldProcess` applies to tag names. -/
def semverNewVersionAccepts (s : String) : Bool :=
  (semverNewVersion s).isSome

/-! ## The calculator's strict tag regex `^(\d+)\.(\d+)\.(\d+)$` -/

/-- Parse of a tag name of the exact shape `^(\d+)\.(\d+)\.(\d+)$`. -/
def parseStrictSemver (s : String) : Option Semver :=
  match chompNumV s.data with
  | some (a, '.' :: r1) =>
    match chompNumV r1 with
    | some (b, '.' :: r2) =>
      match chompNumV r2 with
      | some (c, []) => some ⟨a, b, c⟩
      | _ => none
    | _ => none
  | _ => none

/-- `semverRegex.MatchString` of `calculate_next_version.go`. -/
def semverRegexMatch (s : String) : Bool :=
  (parseStrictSemver s).isSome

/-! ## Conventional-commit regexes -/

/-- Alternatives of the commit-type group, in the order the Go regex lists
them (they are mutually non-prefixing, so order cannot matter). -/
def commitTypes : List String := ["fix", "feat", "chore", "docs", "ci"]

/-- `commitRegex.FindStringSubmatch` for the regex the CODE compiles,
`^(fix|feat|chore|docs|ci)(!?)` — note: no separator after the type.
Returns the captured type and whether the `!` group captured `"!"`. -/
def commitMatch (s : String) : Option (String × Bool) :=
  match commitTypes.find? (fun t => strStartsWith s t) with
  | none => none
  | some t => some (t, strStartsWith (strDrop s t.data.length) "!")

/-- Go's `\s` class: `[\t\n\f\r ]`. -/
def isGoSpace (c : Char) : Bool :=
  c == ' ' || c == '\t' || c == '\n' || c == '\x0c' || c == '\r'

/-- The regex the SPEC states, `^(fix|feat|chore|docs|ci)(!?)(:|\s)`:
after the optional `!` a `:` or whitespace separator is required.
(Greedy `!` then checking the separator is equivalent to full
backtracking here because `!` is neither `:` nor whitespace.) -/
def specCommitMatch (s : String) : Option (String × Bool) :=
  match commitTypes.find? (fun t => strStartsWith s t) with
  | none => none
  | some t =>
    let rest := strDrop s t.data.length
    let bang := strStartsWith rest "!"
    let rest2 := if bang then strDrop rest 1 else rest
    match rest2.data with
    | [] => none
    | c :: _ => if c == ':' || isGoSpace c then some (t, bang) else none

/-! ## Abstract git repository

A commit is its hash (an abstract `Nat`) plus its message.  `log` lists
commits in the order `repo.Log({From: HEAD})` yields them: HEAD first,
walking backwards.  A tag carries its short name, whether a tag object
exists for it (annotated), and the commit hash it resolves to (the tag
object's target for annotated tags, the reference hash itself for
lightweight ones). -/

structure Commit where
  hash : Nat
  message : String
deriving DecidableEq, Repr

structure Tag where
  name : String
  annotated : Bool
  target : Nat
deriving DecidableEq, Repr

structure Repo where
  log : List Commit
  tags : List Tag
deriving Repr

/-- `strings.TrimPrefix(ref.Name().Short(), "tags/")`. -/
def shortTagName (s : String) : String :=
  if strStartsWith s "tags/" then strDrop s 5 else s

/-- The calculator's per-commit tag scan: the first tag (in iteration
order) that is annotated, targets the commit, and whose trimmed name
matches the strict semver regex; lightweight tags never qualify because
`repo.TagObject(ref.Hash())` fails for them. -/
def calcFindTag (tags : List Tag) (h : Nat) : Option String :=
  (tags.find? (fun t =>
    t.annotated && t.target == h && semverRegexMatch (shortTagName t.name))).map
    (fun t => shortTagName t.name)

/-- Outcome of the `cIter.ForEach` walk of `CalculateNextVersion`. -/
inductive WalkResult
  | found (baseTag : String) (isMajor isMinor isPatch : Bool)
  | nonConventional (hash : Nat)
  | exhausted
deriving DecidableEq, Repr

/-- The commit walk: at each commit, first look for a qualifying tag
(stopping with the accumulated bump flags), else classify the message by
the code's commit regex (a non-match aborts), accumulating the
first-matching-case flags of the Go `switch`. -/
def walk (tags : List Tag) : List Commit → Bool → Bool → Bool → WalkResult
  | [], _, _, _ => .exhausted
  | c :: rest, isMajor, isMinor, isPatch =>
    match calcFindTag tags c.hash with
    | some t => .found t isMajor isMinor isPatch
    | none =>
      match commitMatch c.message with
      | none => .nonConventional c.hash
      | some (ty, bang) =>
        walk tags rest (isMajor || bang)
          (isMinor || (!bang && ty == "feat"))
          (isPatch || (!bang && !(ty == "feat")))

/-- `Version.IncMajor`: the `uint64` major field is incremented (wrapping
at `2^64`), minor and patch are zeroed. -/
def incMajor (v : Semver) : Semver := ⟨(v.major + 1) % uint64Size, 0, 0⟩

/-- `Version.IncMinor`: the `uint64` minor field is incremented (wrapping
at `2^64`), the patch is zeroed. -/
def incMinor (v : Semver) : Semver := ⟨v.major, (v.minor + 1) % uint64Size, 0⟩

/-- `Version.IncPatch` on a version without pre-release components: the
`uint64` patch field is incremented (wrapping at `2^64`). -/
def incPatch (v : Semver) : Semver := ⟨v.major, v.minor, (v.patch + 1) % uint64Size⟩

/-- `Versioner.CalculateNextVersion`.  An empty log stands for a
repository whose `HEAD` cannot be resolved. -/
def CalculateNextVersion (repo : Repo) : Except String Semver :=
  if repo.log.isEmpty then .error "failed to get HEAD" else
  match walk repo.tags repo.log false false false with
  | .nonConventional h => .error ("commit " ++ toString h ++ " is not a conventional commit")
  | .exhausted => .error "no semver tag found"
  | .found tag isMajor isMinor isPatch =>
    match semverNewVersion tag with
    | none => .error "invalid semver"
    | some base =>
      if isMajor then .ok (incMajor base)
      else if isMinor then .ok (incMinor base)
      else if isPatch then .ok (incPatch base)
      else .error "no conventional commit type found"

/-- Whether a message matches the code's commit regex with the `!`
group filled (`matches[2] == "!"`). -/
def isBreakingMsg (s : String) : Bool :=
  match commitMatch s with
  | some (_, true) => true
  | _ => false

/-- Whether a message matches with type `feat` and no `!` (the second
case of the Go `switch`). -/
def isFeatMsg (s : String) : Bool :=
  match commitMatch s with
  | some (ty, false) => ty == "feat"
  | _ => false

/-- Whether a message matches with neither `!` nor type `feat` (the
`default` case of the Go `switch`). -/
def isOtherMsg (s : String) : Bool :=
  match commitMatch s with
  | some (ty, false) => !(ty == "feat")
  | _ => false

/-- Strict semver ordering restricted to release versions (no
pre-release components arise anywhere in this development). -/
def semverLt (a b : Semver) : Bool :=
  a.major < b.major ||
  (a.major == b.major && (a.minor < b.minor ||
    (a.minor == b.minor && a.patch < b.patch)))

/-! ## Reconciliation pipeline (`backgroundProcessor`)

The pipeline's interactions with git, the image builder, the env writer
and compose are recorded as an effect trace; each fallible step consults
a success oracle in the pipeline state.  `shouldProcess` resolves BOTH
annotated and lightweight tags to a commit hash and recognizes semver
tag names with the library's lenient `semver.NewVersion`. -/

inductive Effect
  | pull
  | gitCommit
  | gitPush
  | gitCreateTag
  | imageBuild
  | imagePush
  | envWrite
  | composeUp
  | versionFileWrite
deriving DecidableEq, Repr

inductive Variant
  | npm
  | openapi
deriving DecidableEq, Repr

structure PipelineState where
  repo : Repo
  variant : Variant
  pullOk : Bool
  setVersionOk : Bool
  commitOk : Bool
  commitPushOk : Bool
  createTagOk : Bool
  tagPushOk : Bool
  buildOk : Bool
  imagePushOk : Bool
  envWriteOk : Bool
  composeOk : Bool
deriving Repr

/-- `backgroundProcessor.shouldProcess`: pull, read `HEAD`, then scan all
tags; a tag counts when its resolved target (annotated → tag object
target, lightweight → reference hash) is `HEAD` and `semver.NewVersion`
accepts its short name.  Returns `!foundSemver`. -/
def shouldProcess (st : PipelineState) : Except String Bool × List Effect :=
  if !st.pullOk then (.error "failed to pull", [.pull]) else
  match st.repo.log with
  | [] => (.error "failed to get HEAD", [.pull])
  | c :: _ =>
    let foundSemver := st.repo.tags.any
      (fun t => t.target == c.hash && semverNewVersionAccepts t.name)
    (.ok (!foundSemver), [.pull])

/-- Sequence two effectful steps, accumulating traces and propagating the
first error. -/
def andThen (a : Except String Unit × List Effect)
    (b : Unit → Except String Unit × List Effect) :
    Except String Unit × List Effect :=
  match a with
  | (.error e, effs) => (.error e, effs)
  | (.ok _, effs) =>
    let r := b ()
    (r.1, effs ++ r.2)

/-- `SetPackageJsonVersion` / `SetOpenApiYamlVersion` dispatch of the
pipeline's mutate step. -/
def setVersionStep (st : PipelineState) : Except String Unit × List Effect :=
  if st.setVersionOk then (.ok (), [.versionFileWrite])
  else (.error "failed to set version", [.versionFileWrite])

/-- `backgroundProcessor.commitChanges`: stage `*`, commit, push (push
accepts "already up to date", folded into the oracle). -/
def commitChanges (st : PipelineState) : Except String Unit × List Effect :=
  if !st.commitOk then (.error "failed to commit", [.gitCommit])
  else if !st.commitPushOk then (.error "failed to push commit", [.gitCommit, .gitPush])
  else (.ok (), [.gitCommit, .gitPush])

/-- `backgroundProcessor.tagAndPushChanges`: create the annotated tag at
`HEAD`, then push `refs/tags/*:refs/tags/*`. -/
def tagAndPushChanges (st : PipelineState) : Except String Unit × List Effect :=
  if !st.createTagOk then (.error "failed to create tag", [.gitCreateTag])
  else if !st.tagPushOk then (.error "failed to push tags", [.gitCreateTag, .gitPush])
  else (.ok (), [.gitCreateTag, .gitPush])

/-- Step 7 dispatch: NPM services build + push the image, write the env
file and run compose up; OpenAPI services drive the templater's
secret-bearing build. -/
def buildAndDeployStep (st : PipelineState) : Except String Unit × List Effect :=
  match st.variant with
  | .npm =>
    if !st.buildOk then (.error "failed to build image", [.imageBuild])
    else if !st.imagePushOk then (.error "failed to push image", [.imageBuild, .imagePush])
    else if !st.envWriteOk then
      (.error "failed to write env file", [.imageBuild, .imagePush, .envWrite])
    else if !st.composeOk then
      (.error "compose up failed", [.imageBuild, .imagePush, .envWrite, .composeUp])
    else (.ok (), [.imageBuild, .imagePush, .envWrite, .composeUp])
  | .openapi =>
    if !st.buildOk then (.error "failed to build and deploy OpenAPI npm client", [.imageBuild])
    else (.ok (), [.imageBuild])

/-- `backgroundProcessor.ProcessService`: one full reconciliation pass. -/
def ProcessService (st : PipelineState) : Except String Unit × List Effect :=
  match shouldProcess st with
  | (.error e, effs) => (.error e, effs)
  | (.ok false, effs) => (.ok (), effs)
  | (.ok true, effs) =>
    match CalculateNextVersion st.repo with
    | .error e => (.error e, effs)
    | .ok _ =>
      (andThen ((.ok (), effs)) (fun _ =>
        andThen (setVersionStep st) (fun _ =>
          andThen (commitChanges st) (fun _ =>
            andThen (tagAndPushChanges st) (fun _ =>
              buildAndDeployStep st)))))

/-! ## Catalog store (`repo.deploymentService`) and service intake

The filesystem is a set of directories plus a map from file paths to
contents.  A written descriptor is `FileData.svc r` (the marshalled
record); `FileData.raw` stands for any other bytes (in particular
contents that `json.Unmarshal` rejects).  Fallible OS and git calls
consult oracles in `CreateOracles`. -/

structure ServiceRec where
  name : String
  gitSSHUrl : String
  gitBranchName : String
deriving DecidableEq, Repr

inductive FileData
  | svc (r : ServiceRec)
  | raw (s : String)
deriving DecidableEq, Repr

structure FS where
  dirs : List String
  files : List (String × FileData)
deriving DecidableEq, Repr

def FS.addDir (fs : FS) (p : String) : FS :=
  { fs with dirs := p :: fs.dirs }

def FS.putFile (fs : FS) (p : String) (d : FileData) : FS :=
  { fs with files := (p, d) :: fs.files.filter (fun kv => kv.1 != p) }

def FS.readFile (fs : FS) (p : String) : Option FileData :=
  (fs.files.find? (fun kv => kv.1 == p)).map (fun kv => kv.2)

def FS.hasDir (fs : FS) (p : String) : Bool :=
  fs.dirs.any (fun d => d == p)

/-- `os.RemoveAll p`: delete the directory and everything below it. -/
def FS.removeAll (fs : FS) (p : String) : FS :=
  { dirs := fs.dirs.filter (fun d => !(d == p || strStartsWith d (p ++ "/"))),
    files := fs.files.filter (fun kv => !(kv.1 == p || strStartsWith kv.1 (p ++ "/"))) }

def servicePath (root name : String) : String := root ++ "/" ++ name
def descriptorPath (root name : String) : String :=
  servicePath root name ++ "/service_definition.json"
def gitRepoPath (root name : String) : String :=
  servicePath root name ++ "/repo"

/-- Error kinds of the `ierr` package plus opaque wrapped errors. -/
inductive SvcErr
  | notFound
  | conflict
  | other (msg : String)
deriving DecidableEq, Repr

structure CreateOracles where
  mkdirServiceOk : Bool
  marshalOk : Bool
  writeDescriptorOk : Bool
  mkdirRepoOk : Bool
  sshKeyOk : Bool
  cloneOk : Bool
  removeOk : Bool
deriving Repr

/-- `repo.deploymentService.Create`: mkdir `<root>/<name>`, marshal and
write the descriptor, mkdir `repo/`, load the SSH key, clone; only a
clone failure triggers `os.RemoveAll` of the service directory. -/
def repoCreate (root : String) (svc : ServiceRec) (o : CreateOracles) (fs : FS) :
    Except SvcErr Unit × FS :=
  if !o.mkdirServiceOk then (.error (.other "failed to create directory"), fs) else
  let fs1 := fs.addDir (servicePath root svc.name)
  if !o.marshalOk then (.error (.other "failed to marshal service"), fs1) else
  if !o.writeDescriptorOk then (.error (.other "failed to write file"), fs1) else
  let fs2 := fs1.putFile (descriptorPath root svc.name) (.svc svc)
  if !o.mkdirRepoOk then (.error (.other "failed to create directory"), fs2) else
  let fs3 := fs2.addDir (gitRepoPath root svc.name)
  if !o.sshKeyOk then (.error (.other "failed to load ssh key"), fs3) else
  if !o.cloneOk then
    if o.removeOk then (.error (.other "failed to clone repo"), fs3.removeAll (servicePath root svc.name))
    else (.error (.other "failed to clean up service file"), fs3)
  else (.ok (), fs3)

/-- `repo.deploymentService.Get`: a missing (or non-directory) service
directory is `NotFoundError`; a read or unmarshal failure is propagated
as an opaque error. -/
def repoGet (root name : String) (fs : FS) : Except SvcErr ServiceRec :=
  if !fs.hasDir (servicePath root name) then .error .notFound else
  match fs.readFile (descriptorPath root name) with
  | none => .error (.other "read file failed")
  | some (.raw _) => .error (.other "unmarshal failed")
  | some (.svc r) => .ok r

/-- `service.deploymentService.Create` (the intake layer): `Get` first;
`NotFoundError` falls through, any other error propagates, an existing
record is a `ConflictError`; only then is the catalog `Create` invoked
(the returned `Bool` records that invocation). -/
def serviceCreate (root : String) (svc : ServiceRec) (o : CreateOracles) (fs : FS) :
    Except SvcErr Unit × FS × Bool :=
  match repoGet root svc.name fs with
  | .error .notFound =>
    let r := repoCreate root svc o fs
    (r.1, r.2, true)
  | .error e => (.error e, fs, false)
  | .ok _ => (.error .conflict, fs, false)

/-! ## NPM processor: `setPackageJsonVersion`

`package.json` is modelled as its ordered list of top-level fields (the
order standing for the file's formatting).  `sjsonSet` is the external
`sjson.SetBytes` call.  Modelled from the spec: `sjson.SetBytes` is a
surgical edit of the one addressed key, leaving every other key and the
document's layout unchanged (the library is not part of this
repository's sources). -/

def sjsonSet (doc : List (String × String)) (key value : String) :
    List (String × String) :=
  if doc.any (fun kv => kv.1 == key) then
    doc.map (fun kv => if kv.1 == key then (key, value) else kv)
  else doc ++ [(key, value)]

structure NpmState where
  workTreeExists : Bool
  packageJson : Option (List (String × String))
  writeOk : Bool
deriving DecidableEq, Repr

/-- `setPackageJsonVersion`: stat the working tree, read `package.json`,
`sjson.SetBytes(file, "version", v)`, write the file back.  The Go code
returns `nil` in BOTH branches of the final `os.WriteFile` error check,
so a failed write still reports success and leaves the file unchanged. -/
def setPackageJsonVersion (st : NpmState) (v : String) : Option String × NpmState :=
  if !st.workTreeExists then (some "stat failed", st) else
  match st.packageJson with
  | none => (some "read file failed", st)
  | some doc =>
    let newDoc := sjsonSet doc "version" v
    if st.writeOk then (none, { st with packageJson := some newDoc })
    else (none, st)

/-- The top-level `version` key of the modelled `package.json`. -/
def pjVersion (doc : List (String × String)) : Option String :=
  (doc.find? (fun kv => kv.1 == "version")).map (fun kv => kv.2)

/-! ## Compose driver (`compose.runner`)

A Go panic (here: the nil-pointer dereference of an absent
`*semver.Version`) is a distinguished outcome, since it is neither a
return value nor an error. -/

inductive CLIType
  | v1
  | v2
deriving DecidableEq, Repr

structure ComposeState where
  cli : CLIType
  dirExists : Bool
  dirIsDir : Bool
  dockerOnPath : Bool
  runExitOk : Bool
  runOutput : String
deriving DecidableEq, Repr

inductive RunOutcome
  | result (output : String) (err : Option String)
  | panicked
deriving DecidableEq, Repr

def Semver.str (v : Semver) : String :=
  toString v.major ++ "." ++ toString v.minor ++ "." ++ toString v.patch

/-- `runner.constructVersionEnvVar`: `fmt.Sprintf("%s=%s", "VERSION",
version.String())`.  `semver.Version.String` has a value receiver, so a
nil `*semver.Version` is dereferenced — `none` here marks that panic. -/
def constructVersionEnvVar (version : Option Semver) : Option String :=
  version.map (fun v => "VERSION=" ++ v.str)

/-- `runner.runComposeCommand`: stat and directory checks, CLI
resolution, then — unconditionally — the version env-var construction,
then the subprocess. -/
def runComposeCommand (st : ComposeState) (version : Option Semver) :
    RunOutcome :=
  if !st.dirExists then .result "" (some "composeDir invalid") else
  if !st.dirIsDir then .result "" (some "composeDir is not a directory") else
  match st.cli with
  | .v2 =>
    if !st.dockerOnPath then .result "" (some "docker not found in PATH") else
    match constructVersionEnvVar version with
    | none => .panicked
    | some _ =>
      if st.runExitOk then .result st.runOutput none
      else .result st.runOutput (some "command failed")
  | .v1 =>
    match constructVersionEnvVar version with
    | none => .panicked
    | some _ =>
      if st.runExitOk then .result st.runOutput none
      else .result st.runOutput (some "command failed")

/-- `runner.Up`: version is always supplied. -/
def composeUp (st : ComposeState) (version : Semver) : RunOutcome :=
  runComposeCommand st (some version)

/-- `runner.Down`: `runComposeCommand(ctx, nil, composeDir, "down")`. -/
def composeDown (st : ComposeState) : RunOutcome :=
  runComposeCommand st none

/-! ## Env-file writer (`service.envFileWriter.WriteEnvFile`) -/

structure EnvState where
  ctxCanceled : Bool
  dirExists : Bool
  dirIsDir : Bool
  writeOk : Bool
deriving DecidableEq, Repr

inductive EnvWriteResult
  | err (msg : String)
  | okNoWrite
  | okWrote (content : String)
deriving DecidableEq, Repr

/-- Lexicographic comparison of character lists (the order `sort.Strings`
uses, restricted to the characters that occur in env keys). -/
def charListLe : List Char → List Char → Bool
  | [], _ => true
  | _ :: _, [] => false
  | a :: as, b :: bs =>
    if a < b then true
    else if b < a then false
    else charListLe as bs

/-- Ascending lexicographic string order. -/
def strLe (a b : String) : Bool :=
  charListLe a.data b.data

/-- `sort.Strings`: ascending lexicographic sort of the key slice. -/
def sortStrings (l : List String) : List String :=
  List.insertionSort (fun a b => strLe a b = true) l

/-- `envVars[k]` for a key collected from the map itself. -/
def lookupKV (k : String) (l : List (String × String)) : String :=
  ((l.find? (fun kv => kv.1 == k)).map (fun kv => kv.2)).getD ""

/-- The content loop: collect the keys, sort them, then render
`key=value\n` per key by map lookup (values are modelled as their `%v`
renderings). -/
def renderEnvContent (envVars : List (String × String)) : String :=
  (sortStrings (envVars.map (fun kv => kv.1))).foldl
    (fun acc k => acc ++ k ++ "=" ++ lookupKV k envVars ++ "\n") ""

/-- `WriteEnvFile`: argument validation, the documented empty-map early
return, context check, directory checks, then the write.  The `envVars`
list carries the key/value pairs of the Go map (keys distinct); its list
order models the map's arbitrary iteration order. -/
def WriteEnvFile (st : EnvState) (path envFile : String)
    (envVars : List (String × String)) : EnvWriteResult :=
  if path == "" then .err "path cannot be empty" else
  if envFile == "" then .err "envFile cannot be empty" else
  if envVars.isEmpty then .okNoWrite else
  if st.ctxCanceled then .err "context canceled before writing env file" else
  if !st.dirExists then .err "directory does not exist" else
  if !st.dirIsDir then .err "path is not a directory" else
  if !st.writeOk then .err "failed to write .env file" else
  .okWrote (renderEnvContent envVars)

/-- Reference rendering for the claim's content description: the pairs
themselves sorted by key, each rendered `key=value\n` in order. -/
def sortPairsByKey (l : List (String × String)) : List (String × String) :=
  List.insertionSort (fun a b : String × String => strLe a.1 b.1 = true) l

def renderPairs (l : List (String × String)) : String :=
  l.foldl (fun acc kv => acc ++ kv.1 ++ "=" ++ kv.2 ++ "\n") ""

end DeploymentService

namespace DeploymentService

-- sanity checks on the embeddings (small concrete inputs)
example : semverNewVersionAccepts "v1.2.3" = true := by decide
example : semverNewVersionAccepts "1.2" = true := by decide
example : semverNewVersionAccepts "1.2.3-rc.1" = true := by decide
example : semverNewVersionAccepts "1.2.3" = true := by decide
example : semverNewVersionAccepts "a.b.c" = false := by decide
example : semverRegexMatch "1.2.3" = true := by decide
example : semverRegexMatch "v1.2.3" = false := by decide
example : semverRegexMatch "1.2" = false := by decide
example : semverRegexMatch "1.2.3-rc.1" = false := by decide
-- faithfulness at the uint64 boundary: 2^64-1 parses, 2^64 is a range error
example : semverNewVersionAccepts "18446744073709551615.0.0" = true := by rfl
example : semverNewVersionAccepts "18446744073709551616.0.0" = false := by rfl
example : semverRegexMatch "18446744073709551616.0.0" = true := by rfl
-- the library's uint64 increment wraps at the maximum
example : incMajor ⟨18446744073709551615, 0, 0⟩ = ⟨0, 0, 0⟩ := by rfl
example :
    CalculateNextVersion ⟨[⟨1, "feat!: x"⟩, ⟨0, "init"⟩],
      [⟨"18446744073709551615.0.0", true, 0⟩]⟩ = .ok ⟨0, 0, 0⟩ := by rfl
example : commitMatch "fixture: x" = some ("fix", false) := by decide
example : commitMatch "feat!: x" = some ("feat", true) := by decide
example : commitMatch "hello" = none := by decide
example : specCommitMatch "fixture: x" = none := by decide
example : specCommitMatch "fix: x" = some ("fix", false) := by decide
example :
    CalculateNextVersion
      ⟨[⟨2, "feat: x"⟩, ⟨1, "fix: y"⟩, ⟨0, "init"⟩], [⟨"1.2.3", true, 0⟩]⟩ =
    .ok ⟨1, 3, 0⟩ := by rfl
example :
    CalculateNextVersion ⟨[⟨0, "init"⟩], [⟨"1.0.0", true, 0⟩]⟩ =
    .error "no conventional commit type found" := by rfl
example :
    CalculateNextVersion ⟨[⟨1, "fix: a"⟩, ⟨0, "init"⟩], [⟨"1.0.0", false, 0⟩]⟩ =
    .error "commit 0 is not a conventional commit" := by rfl

example :
    ProcessService
      { repo := ⟨[⟨5, "ci: Release version 3.0.0"⟩], [⟨"3.0.0", true, 5⟩]⟩,
        variant := .npm, pullOk := true, setVersionOk := true, commitOk := true,
        commitPushOk := true, createTagOk := true, tagPushOk := true,
        buildOk := true, imagePushOk := true, envWriteOk := true, composeOk := true } =
    (.ok (), [.pull]) := by rfl

example :
    composeDown ⟨.v1, true, true, true, true, "out"⟩ = .panicked := by rfl

example :
    composeUp ⟨.v1, true, true, true, true, "out"⟩ ⟨1, 2, 3⟩ =
    .result "out" none := by rfl

example :
    WriteEnvFile ⟨false, true, true, true⟩ "d" "f" [("b", "2"), ("a", "1")] =
    .okWrote "a=1\nb=2\n" := by rfl

example :
    setPackageJsonVersion ⟨true, some [("name", "x"), ("version", "0.1.0")], false⟩ "1.2.3" =
    (none, ⟨true, some [("name", "x"), ("version", "0.1.0")], false⟩) := by rfl

example :
    serviceCreate "/srv" ⟨"alpha", "u", "b"⟩ ⟨true, true, true, true, true, true, true⟩
      ⟨["/srv"], []⟩ =
    (.ok (), ⟨["/srv/alpha/repo", "/srv/alpha", "/srv"],
      [("/srv/alpha/service_definition.json", .svc ⟨"alpha", "u", "b"⟩)]⟩, true) := by rfl

/-! ## Lemmas about the semver recognizers -/

lemma chompNumV_shape {cs : List Char} {a : Nat} {r : List Char}
    (h : chompNumV cs = some (a, r)) :
    ∃ c tl, cs = c :: tl ∧ c.isDigit = true := by
  cases cs with
  | nil => simp [chompNumV] at h
  | cons c tl =>
    cases hd : c.isDigit with
    | true => exact ⟨c, tl, rfl, hd⟩
    | false => simp [chompNumV, hd] at h

lemma isDigit_beq_v_false {c : Char} (h : c.isDigit = true) : (c == 'v') = false := by
  cases hv : c == 'v' with
  | false => rfl
  | true =>
    have hc : c = 'v' := eq_of_beq hv
    subst hc
    exact absurd h (by decide)

/-- Every tag name the calculator's strict regex `^(\d+)\.(\d+)\.(\d+)$`
matches whose three numerals fit the library's 64-bit components is also
parsed — to the same three numbers — by the `semver.NewVersion` that
`shouldProcess` relies on.  (The range hypotheses are necessary:
`NewVersion` rejects a numeral of value `≥ 2^64` with a `ParseUint`
range error although the regex matches it.) -/
lemma parseStrict_imp_newVersion {s : String} {v : Semver}
    (h : parseStrictSemver s = some v)
    (hmaj : v.major < uint64Size) (hmin : v.minor < uint64Size)
    (hpat : v.patch < uint64Size) : semverNewVersion s = some v := by
  unfold parseStrictSemver at h
  split at h
  case _ a r1 h1 =>
    split at h
    case _ b r2 h2 =>
      split at h
      case _ c h3 =>
        obtain ⟨ch, tl, hcs, hdig⟩ := chompNumV_shape h1
        have hch : (ch == 'v') = false := isDigit_beq_v_false hdig
        have hv : v = ⟨a, b, c⟩ := (Option.some.inj h).symm
        subst hv
        have ha : a < uint64Size := hmaj
        have hb : b < uint64Size := hmin
        have hc : c < uint64Size := hpat
        unfold semverNewVersion
        rw [hcs]
        simp only [hch, Bool.false_eq_true, if_false]
        rw [← hcs]
        simp only [lenCore, h1, h2, h3, ha, hb, hc, if_true]
        simp [suffixPart]
      case _ hne => exact absurd h (by simp)
    case _ hne => exact absurd h (by simp)
  case _ hne => exact absurd h (by simp)

/-! ## Claim theorems -/

/-- C3 counterexample: the claim says `shouldProcess` recognizes a tag
name as a semver release tag IFF it matches `^\d+\.\d+\.\d+$`.  The tag
name `v1.2.3` (and likewise `1.2`) is accepted by the
`semver.NewVersion` call in `shouldProcess` but rejected by the
calculator's regex, so the two recognizers differ. -/
theorem C3_counterexample :
    semverNewVersionAccepts "v1.2.3" = true ∧ semverRegexMatch "v1.2.3" = false ∧
    semverNewVersionAccepts "1.2" = true ∧ semverRegexMatch "1.2" = false := by
  exact ⟨rfl, rfl, rfl, rfl⟩

/-- C3 amended: the two recognition rules are incomparable, neither
containing the other.  `shouldProcess`'s `semver.NewVersion` accepts
`v1.2.3`, which the calculator's `^\d+\.\d+\.\d+$` rejects; the regex
matches `18446744073709551616.0.0` (a numeral of value `2^64`), which
`NewVersion` rejects with a `ParseUint` range error.  The rules agree on
the strict three-number shape with components in 64-bit range: every
such regex-matching name parses under `NewVersion` to the same triple. -/
theorem C3_amended :
    (∀ (s : String) (v : Semver), parseStrictSemver s = some v →
      v.major < uint64Size → v.minor < uint64Size → v.patch < uint64Size →
      semverNewVersionAccepts s = true) ∧
    (semverNewVersionAccepts "v1.2.3" = true ∧ semverRegexMatch "v1.2.3" = false) ∧
    (semverRegexMatch "18446744073709551616.0.0" = true ∧
      semverNewVersionAccepts "18446744073709551616.0.0" = false) := by
  refine ⟨fun s v hp h1 h2 h3 => ?_, ⟨rfl, rfl⟩, ⟨rfl, rfl⟩⟩
  unfold semverNewVersionAccepts
  rw [parseStrict_imp_newVersion hp h1 h2 h3]
  rfl

/-- C3 witness: the agreement direction applied at `1.2.3`. -/
theorem C3_witness : semverNewVersionAccepts "1.2.3" = true :=
  C3_amended.1 "1.2.3" ⟨1, 2, 3⟩ (by rfl) (by decide) (by decide) (by decide)

/-! ## The commit walk: accumulated bump flags -/

/-- Walking a prefix of untagged, regex-matching commits accumulates
exactly the three `switch` flags, by first-match case precedence. -/
lemma walk_append (tags : List Tag) (pre l2 : List Commit) :
    ∀ (M m p : Bool),
    (∀ x ∈ pre, calcFindTag tags x.hash = none) →
    (∀ x ∈ pre, (commitMatch x.message).isSome) →
    walk tags (pre ++ l2) M m p =
      walk tags l2 (M || pre.any (fun x => isBreakingMsg x.message))
        (m || pre.any (fun x => isFeatMsg x.message))
        (p || pre.any (fun x => isOtherMsg x.message)) := by
  induction pre with
  | nil => intro M m p _ _; simp
  | cons x pre ih =>
    intro M m p hNoTag hConv
    have hx : calcFindTag tags x.hash = none := hNoTag x (by simp)
    have hcm : (commitMatch x.message).isSome := hConv x (by simp)
    obtain ⟨⟨ty, bang⟩, hmatch⟩ := Option.isSome_iff_exists.mp hcm
    have hbreak : isBreakingMsg x.message = bang := by
      cases bang <;> simp [isBreakingMsg, hmatch]
    have hfeat : isFeatMsg x.message = (!bang && ty == "feat") := by
      cases bang <;> simp [isFeatMsg, hmatch]
    have hother : isOtherMsg x.message = (!bang && !(ty == "feat")) := by
      cases bang <;> simp [isOtherMsg, hmatch]
    have step :
        walk tags ((x :: pre) ++ l2) M m p =
          walk tags (pre ++ l2) (M || bang) (m || (!bang && ty == "feat"))
            (p || (!bang && !(ty == "feat"))) := by
      simp only [List.cons_append, walk, hx, hmatch]
      rfl
    rw [step, ih _ _ _ (fun y hy => hNoTag y (by simp [hy]))
      (fun y hy => hConv y (by simp [hy]))]
    simp only [List.any_cons, hbreak, hfeat, hother, Bool.or_assoc]

/-- A nonempty prefix of regex-matching commits sets at least one flag. -/
lemma flags_nonempty (pre : List Commit) (hne : pre ≠ [])
    (hConv : ∀ x ∈ pre, (commitMatch x.message).isSome) :
    (pre.any (fun x => isBreakingMsg x.message) ||
     pre.any (fun x => isFeatMsg x.message) ||
     pre.any (fun x => isOtherMsg x.message)) = true := by
  cases pre with
  | nil => exact absurd rfl hne
  | cons x pre =>
    obtain ⟨⟨ty, bang⟩, hmatch⟩ :=
      Option.isSome_iff_exists.mp (hConv x (by simp))
    simp only [List.any_cons, Bool.or_assoc]
    cases bang with
    | true => simp [isBreakingMsg, hmatch]
    | false =>
      cases hf : (ty == "feat") with
      | true => simp [isFeatMsg, hmatch, hf]
      | false => simp [isBreakingMsg, isFeatMsg, isOtherMsg, hmatch, hf]

lemma semverLt_incMajor (v : Semver) (h : v.major + 1 < uint64Size) :
    semverLt v (incMajor v) = true := by
  simp [semverLt, incMajor, Nat.mod_eq_of_lt h]

lemma semverLt_incMinor (v : Semver) (h : v.minor + 1 < uint64Size) :
    semverLt v (incMinor v) = true := by
  simp [semverLt, incMinor, Nat.mod_eq_of_lt h]

lemma semverLt_incPatch (v : Semver) (h : v.patch + 1 < uint64Size) :
    semverLt v (incPatch v) = true := by
  simp [semverLt, incPatch, Nat.mod_eq_of_lt h]

/-- C1 counterexample: the claim quantifies over EVERY repository whose
base semver tag is reachable from `HEAD` with only conventional commits
in between — including the one where `HEAD` itself carries the base tag
(an empty range, vacuously conventional).  There the walk stops at once
with no bump flag set and `CalculateNextVersion` returns the error
`no conventional commit type found` instead of a greater version. -/
theorem C1_counterexample :
    calcFindTag [⟨"1.0.0", true, 0⟩] 0 = some "1.0.0" ∧
    CalculateNextVersion ⟨[⟨0, "init"⟩], [⟨"1.0.0", true, 0⟩]⟩ =
      .error "no conventional commit type found" := by
  exact ⟨rfl, rfl⟩

/-- C1 amended: additionally require at least one commit strictly
between `HEAD` and the (annotated) base-tagged commit, and that every
numeric component of the base is strictly below the `uint64` maximum
`2^64 - 1` (the library's increments wrap there: at a base of
`18446744073709551615.0.0` a breaking commit yields `0.0.0`).  Then the
calculator succeeds, applies exactly one bump with precedence breaking >
`feat` > other, and the result is strictly greater than the base under
semver ordering. -/
theorem C1_version_monotonic (tags : List Tag) (pre : List Commit)
    (c : Commit) (rest : List Commit) (tagName : String) (base : Semver)
    (hne : pre ≠ [])
    (hNoTag : ∀ x ∈ pre, calcFindTag tags x.hash = none)
    (hConv : ∀ x ∈ pre, (commitMatch x.message).isSome)
    (hTag : calcFindTag tags c.hash = some tagName)
    (hBase : semverNewVersion tagName = some base)
    (hM : base.major + 1 < uint64Size)
    (hm : base.minor + 1 < uint64Size)
    (hp : base.patch + 1 < uint64Size) :
    CalculateNextVersion ⟨pre ++ c :: rest, tags⟩ =
      .ok (if pre.any (fun x => isBreakingMsg x.message) then incMajor base
           else if pre.any (fun x => isFeatMsg x.message) then incMinor base
           else incPatch base) ∧
    semverLt base
      (if pre.any (fun x => isBreakingMsg x.message) then incMajor base
       else if pre.any (fun x => isFeatMsg x.message) then incMinor base
       else incPatch base) = true := by
  have hNewV : semverNewVersion tagName = some base := hBase
  have hwalk := walk_append tags pre (c :: rest) false false false hNoTag hConv
  have hfound :
      walk tags (pre ++ c :: rest) false false false =
        .found tagName (pre.any (fun x => isBreakingMsg x.message))
          (pre.any (fun x => isFeatMsg x.message))
          (pre.any (fun x => isOtherMsg x.message)) := by
    rw [hwalk]
    simp [walk, hTag]
  have hnonempty : (pre ++ c :: rest).isEmpty = false := by
    cases pre <;> simp
  constructor
  · unfold CalculateNextVersion
    simp only [hnonempty, Bool.false_eq_true, if_false, hfound, hNewV]
    cases hB : pre.any (fun x => isBreakingMsg x.message) with
    | true => simp
    | false =>
      cases hF : pre.any (fun x => isFeatMsg x.message) with
      | true => simp
      | false =>
        have hP := flags_nonempty pre hne hConv
        rw [hB, hF] at hP
        simp only [Bool.false_or] at hP
        simp [hP]
  · cases hB : pre.any (fun x => isBreakingMsg x.message) with
    | true => simp [semverLt_incMajor base hM]
    | false =>
      cases hF : pre.any (fun x => isFeatMsg x.message) with
      | true => simp [semverLt_incMinor base hm]
      | false => simp [semverLt_incPatch base hp]

/-- C1 witness: base `1.2.3` with commits `feat: x`, `fix: y` since the
tag yields `1.3.0`, strictly greater than the base. -/
theorem C1_witness :
    CalculateNextVersion
      ⟨[⟨2, "feat: x"⟩, ⟨1, "fix: y"⟩, ⟨0, "init"⟩], [⟨"1.2.3", true, 0⟩]⟩ =
      .ok ⟨1, 3, 0⟩ ∧ semverLt ⟨1, 2, 3⟩ ⟨1, 3, 0⟩ = true := by
  have h := C1_version_monotonic [⟨"1.2.3", true, 0⟩]
    [⟨2, "feat: x"⟩, ⟨1, "fix: y"⟩] ⟨0, "init"⟩ [] "1.2.3" ⟨1, 2, 3⟩
    (by decide) (by decide) (by decide) (by rfl) (by rfl)
    (by decide) (by decide) (by decide)
  simpa using h

/-- C4 counterexample: the claim says a commit whose first line fails
`^(fix|feat|chore|docs|ci)(!?)(:|\s)` — such as `fixture: x` — makes the
calculator fail hard.  The compiled regex has no separator group, so
`fixture: x` matches as a `fix` and contributes a patch bump: the run
succeeds with `1.0.1`. -/
theorem C4_counterexample :
    specCommitMatch "fixture: x" = none ∧
    commitMatch "fixture: x" = some ("fix", false) ∧
    CalculateNextVersion ⟨[⟨1, "fixture: x"⟩, ⟨0, "init"⟩], [⟨"1.0.0", true, 0⟩]⟩ =
      .ok ⟨1, 0, 1⟩ := by
  exact ⟨rfl, rfl, rfl⟩

/-- C4 amended: classification uses `^(fix|feat|chore|docs|ci)(!?)` with
no separator: any first line beginning with one of the five type words
is accepted (and bumps per its type), and a visited untagged commit
whose message does NOT begin with one of the five types is the hard
error `commit <hash> is not a conventional commit`. -/
theorem C4_nonmatching_commit_fails (tags : List Tag) (pre : List Commit)
    (c : Commit) (rest : List Commit)
    (hNoTagPre : ∀ x ∈ pre, calcFindTag tags x.hash = none)
    (hConvPre : ∀ x ∈ pre, (commitMatch x.message).isSome)
    (hNoTagC : calcFindTag tags c.hash = none)
    (hBad : commitMatch c.message = none) :
    CalculateNextVersion ⟨pre ++ c :: rest, tags⟩ =
      .error ("commit " ++ toString c.hash ++ " is not a conventional commit") := by
  have hwalk := walk_append tags pre (c :: rest) false false false hNoTagPre hConvPre
  have hnonempty : (pre ++ c :: rest).isEmpty = false := by
    cases pre <;> simp
  unfold CalculateNextVersion
  simp only [hnonempty, Bool.false_eq_true, if_false, hwalk, walk, hNoTagC, hBad]

/-- C4 witness: one conventional commit (`docs` text without separator,
still accepted) above a non-matching `hello world` commit. -/
theorem C4_witness :
    CalculateNextVersion
      ⟨[⟨2, "docsify"⟩, ⟨1, "hello world"⟩, ⟨0, "init"⟩], [⟨"2.0.0", true, 0⟩]⟩ =
      .error "commit 1 is not a conventional commit" := by
  have h := C4_nonmatching_commit_fails [⟨"2.0.0", true, 0⟩]
    [⟨2, "docsify"⟩] ⟨1, "hello world"⟩ [⟨0, "init"⟩]
    (by decide) (by decide) (by rfl) (by rfl)
  simpa using h

/-- C5: the spec requires the walk to stop at a commit carrying ANY
semver tag, lightweight or annotated.  The code only consults
`repo.TagObject`, which fails for lightweight tags, so a lightweight
`1.0.0` on the parent commit is invisible to the calculator (the run
errors on the untagged parent) even though the very same tag at `HEAD`
is resolved by `shouldProcess` via its reference hash. -/
theorem C5_lightweight_tag_ignored :
    CalculateNextVersion ⟨[⟨1, "fix: a"⟩, ⟨0, "init"⟩], [⟨"1.0.0", false, 0⟩]⟩ =
      .error "commit 0 is not a conventional commit" ∧
    calcFindTag [⟨"1.0.0", false, 0⟩] 0 = none ∧
    (shouldProcess
      { repo := ⟨[⟨0, "init"⟩], [⟨"1.0.0", false, 0⟩]⟩,
        variant := .npm, pullOk := true, setVersionOk := true, commitOk := true,
        commitPushOk := true, createTagOk := true, tagPushOk := true,
        buildOk := true, imagePushOk := true, envWriteOk := true,
        composeOk := true }).1 = .ok false := by
  exact ⟨rfl, rfl, rfl⟩

/-- C2: when some tag resolving to `HEAD` has a name accepted by
`semver.NewVersion`, `shouldProcess` returns `false` and the whole pass
returns success having performed only the pull of step 1 — no commit,
no tag creation, no push, no image build, no image push, no env write
and no compose invocation appear in the effect trace. -/
theorem C2_idempotent_reconciliation (st : PipelineState) (c : Commit)
    (rest : List Commit) (t : Tag)
    (hlog : st.repo.log = c :: rest)
    (hpull : st.pullOk = true)
    (ht : t ∈ st.repo.tags)
    (htarget : t.target = c.hash)
    (hname : semverNewVersionAccepts t.name = true) :
    shouldProcess st = (.ok false, [.pull]) ∧
    ProcessService st = (.ok (), [.pull]) := by
  have hfound : st.repo.tags.any
      (fun t => t.target == c.hash && semverNewVersionAccepts t.name) = true := by
    refine List.any_eq_true.mpr ⟨t, ht, ?_⟩
    rw [htarget, hname]
    simp
  have hsp : shouldProcess st = (.ok false, [.pull]) := by
    unfold shouldProcess
    rw [hpull, hlog]
    simp [hfound]
  refine ⟨hsp, ?_⟩
  unfold ProcessService
  rw [hsp]

/-- C2 witness: a single-commit repository whose `HEAD` carries the
annotated tag `3.0.0`. -/
theorem C2_witness :
    ProcessService
      { repo := ⟨[⟨5, "ci: Release version 3.0.0"⟩], [⟨"3.0.0", true, 5⟩]⟩,
        variant := .npm, pullOk := true, setVersionOk := true, commitOk := true,
        commitPushOk := true, createTagOk := true, tagPushOk := true,
        buildOk := true, imagePushOk := true, envWriteOk := true,
        composeOk := true } = (.ok (), [.pull]) := by
  have h := C2_idempotent_reconciliation
    { repo := ⟨[⟨5, "ci: Release version 3.0.0"⟩], [⟨"3.0.0", true, 5⟩]⟩,
      variant := .npm, pullOk := true, setVersionOk := true, commitOk := true,
      commitPushOk := true, createTagOk := true, tagPushOk := true,
      buildOk := true, imagePushOk := true, envWriteOk := true,
      composeOk := true }
    ⟨5, "ci: Release version 3.0.0"⟩ [] ⟨"3.0.0", true, 5⟩
    rfl rfl (by decide) rfl (by rfl)
  exact h.2

/-- C8: `setPackageJsonVersion` returns `nil` in the error branch of its
final `os.WriteFile` — a failed write reports success while the file
keeps its old `version` (here `0.1.0` though `1.2.3` was computed), so
"success implies the version key equals the computed version" fails. -/
theorem C8_write_error_swallowed :
    setPackageJsonVersion
      ⟨true, some [("name", "x"), ("version", "0.1.0")], false⟩ "1.2.3" =
      (none, ⟨true, some [("name", "x"), ("version", "0.1.0")], false⟩) ∧
    pjVersion [("name", "x"), ("version", "0.1.0")] = some "0.1.0" ∧
    ("0.1.0" = "1.2.3") = False := by
  refine ⟨rfl, rfl, ?_⟩
  simp

/-- C9: `Down` passes a nil `*semver.Version` into `runComposeCommand`,
which — after the directory checks pass — unconditionally evaluates
`constructVersionEnvVar(version)`, dereferencing the nil pointer.  For
an existing directory, `Down` therefore panics (under both compose CLI
flavors) instead of returning an (output, error) pair. -/
theorem C9_down_panics :
    composeDown ⟨.v1, true, true, true, true, "out"⟩ = .panicked ∧
    composeDown ⟨.v2, true, true, true, true, "out"⟩ = .panicked ∧
    composeUp ⟨.v1, true, true, true, true, "out"⟩ ⟨1, 2, 3⟩ = .result "out" none := by
  exact ⟨rfl, rfl, rfl⟩

/-! ## Catalog lemmas and theorems -/

lemma hasDir_removeAll_self (fs : FS) (p : String) :
    (fs.removeAll p).hasDir p = false := by
  simp only [FS.removeAll, FS.hasDir]
  rw [Bool.eq_false_iff]
  intro hany
  obtain ⟨x, hx, hxp⟩ := List.any_eq_true.mp hany
  obtain ⟨hmem, hpred⟩ := List.mem_filter.mp hx
  have hx' : x = p := by simpa using hxp
  subst hx'
  simp at hpred

/-- C6 counterexample: with the descriptor already written and `repo/`
created, a failing SSH-key load aborts `Create` with an error while
`<root>/<name>/` (here `/srv/alpha`) is still on disk — the claimed
unconditional cleanup does not happen. -/
theorem C6_counterexample :
    (repoCreate "/srv" ⟨"alpha", "u", "b"⟩ ⟨true, true, true, true, false, true, true⟩
      ⟨["/srv"], []⟩).1 = .error (.other "failed to load ssh key") ∧
    ((repoCreate "/srv" ⟨"alpha", "u", "b"⟩ ⟨true, true, true, true, false, true, true⟩
      ⟨["/srv"], []⟩).2).hasDir "/srv/alpha" = true := by
  exact ⟨rfl, rfl⟩

/-- C6 amended: only a clone failure triggers `os.RemoveAll` of the
partial `<root>/<name>/`; a failure at descriptor marshalling, at
writing `service_definition.json`, at creating `repo/`, or at loading
the SSH key reports the error but leaves the partial directory on
disk. -/
theorem C6_cleanup_only_on_clone_failure (root : String) (svc : ServiceRec)
    (o : CreateOracles) (fs : FS) (hm : o.mkdirServiceOk = true) :
    (o.marshalOk = false →
      (repoCreate root svc o fs).1 = .error (.other "failed to marshal service") ∧
      ((repoCreate root svc o fs).2).hasDir (servicePath root svc.name) = true) ∧
    (o.marshalOk = true → o.writeDescriptorOk = false →
      (repoCreate root svc o fs).1 = .error (.other "failed to write file") ∧
      ((repoCreate root svc o fs).2).hasDir (servicePath root svc.name) = true) ∧
    (o.marshalOk = true → o.writeDescriptorOk = true → o.mkdirRepoOk = false →
      (repoCreate root svc o fs).1 = .error (.other "failed to create directory") ∧
      ((repoCreate root svc o fs).2).hasDir (servicePath root svc.name) = true) ∧
    (o.marshalOk = true → o.writeDescriptorOk = true → o.mkdirRepoOk = true →
      o.sshKeyOk = false →
      (repoCreate root svc o fs).1 = .error (.other "failed to load ssh key") ∧
      ((repoCreate root svc o fs).2).hasDir (servicePath root svc.name) = true) ∧
    (o.marshalOk = true → o.writeDescriptorOk = true → o.mkdirRepoOk = true →
      o.sshKeyOk = true → o.cloneOk = false → o.removeOk = true →
      (repoCreate root svc o fs).1 = .error (.other "failed to clone repo") ∧
      ((repoCreate root svc o fs).2).hasDir (servicePath root svc.name) = false) := by
  refine ⟨?_, ?_, ?_, ?_, ?_⟩
  · intro h1
    unfold repoCreate
    simp [hm, h1, FS.addDir, FS.hasDir]
  · intro h1 h2
    unfold repoCreate
    simp [hm, h1, h2, FS.addDir, FS.hasDir]
  · intro h1 h2 h3
    unfold repoCreate
    simp [hm, h1, h2, h3, FS.addDir, FS.putFile, FS.hasDir]
  · intro h1 h2 h3 h4
    unfold repoCreate
    simp [hm, h1, h2, h3, h4, FS.addDir, FS.putFile, FS.hasDir]
  · intro h1 h2 h3 h4 h5 h6
    constructor
    · unfold repoCreate
      simp [hm, h1, h2, h3, h4, h5, h6]
    · unfold repoCreate
      simp only [hm, h1, h2, h3, h4, h5, h6, Bool.not_true, Bool.not_false,
        Bool.false_eq_true, if_false, if_true, ite_true, ite_false]
      exact hasDir_removeAll_self _ _

/-- C6 witness: the clone-failure branch at concrete inputs removes the
partial directory. -/
theorem C6_witness :
    (repoCreate "/srv" ⟨"alpha", "u", "b"⟩ ⟨true, true, true, true, true, false, true⟩
      ⟨["/srv"], []⟩).1 = .error (.other "failed to clone repo") ∧
    ((repoCreate "/srv" ⟨"alpha", "u", "b"⟩ ⟨true, true, true, true, true, false, true⟩
      ⟨["/srv"], []⟩).2).hasDir "/srv/alpha" = false :=
  (C6_cleanup_only_on_clone_failure "/srv" ⟨"alpha", "u", "b"⟩
    ⟨true, true, true, true, true, false, true⟩ ⟨["/srv"], []⟩ rfl).2.2.2.2
    rfl rfl rfl rfl rfl rfl

/-- After a successful `repoCreate`, `Get` of the same name finds the
record: the service directory exists and the descriptor reads back. -/
lemma repoGet_after_create (root : String) (svc : ServiceRec)
    (o : CreateOracles) (fs : FS)
    (hok : (repoCreate root svc o fs).1 = .ok ()) :
    repoGet root svc.name ((repoCreate root svc o fs).2) = .ok svc := by
  obtain ⟨m1, m2, m3, m4, m5, m6, m7⟩ := o
  cases m1 <;> cases m2 <;> cases m3 <;> cases m4 <;> cases m5 <;> cases m6 <;> cases m7 <;>
    simp_all [repoCreate, repoGet, FS.addDir, FS.putFile, FS.hasDir, FS.readFile,
      descriptorPath]

/-- C7: once a `Create` for a name has succeeded, a second `Create` for
the same name takes the intake path `Get → record exists → Conflict`,
changing nothing on disk and never invoking the catalog `Create`; and
any non-NotFound `Get` error is propagated, likewise without invoking
the catalog `Create`. -/
theorem C7_second_create_conflicts (root : String) (svc : ServiceRec)
    (o₁ o₂ : CreateOracles) (fs fs₁ : FS) (inv : Bool)
    (h1 : serviceCreate root svc o₁ fs = (.ok (), fs₁, inv)) :
    serviceCreate root svc o₂ fs₁ = (.error .conflict, fs₁, false) ∧
    (∀ (fs' : FS) (msg : String),
      repoGet root svc.name fs' = .error (.other msg) →
      serviceCreate root svc o₂ fs' = (.error (.other msg), fs', false)) := by
  constructor
  · unfold serviceCreate at h1
    split at h1
    case _ =>
      have hr : (repoCreate root svc o₁ fs).1 = .ok () ∧
          (repoCreate root svc o₁ fs).2 = fs₁ := by
        have := congrArg Prod.fst h1
        have h2 := congrArg (fun q => q.2.1) h1
        exact ⟨this, h2⟩
      have hget : repoGet root svc.name fs₁ = .ok svc := by
        rw [← hr.2]
        exact repoGet_after_create root svc o₁ fs hr.1
      unfold serviceCreate
      rw [hget]
    case _ e hne =>
      exact absurd (congrArg Prod.fst h1) (by simp)
    case _ =>
      exact absurd (congrArg Prod.fst h1) (by simp)
  · intro fs' msg hget
    unfold serviceCreate
    rw [hget]

/-! ## Order lemmas for the env writer's key sort -/

lemma charListLe_total : ∀ (as bs : List Char),
    charListLe as bs = true ∨ charListLe bs as = true
  | [], bs => Or.inl (by cases bs <;> rfl)
  | a :: as, [] => Or.inr rfl
  | a :: as, b :: bs => by
    rcases lt_trichotomy a b with h | h | h
    · left; simp [charListLe, h]
    · subst h
      rcases charListLe_total as bs with ih | ih
      · left; simp [charListLe, lt_irrefl, ih]
      · right; simp [charListLe, lt_irrefl, ih]
    · right; simp [charListLe, h]

lemma charListLe_trans : ∀ (as bs cs : List Char),
    charListLe as bs = true → charListLe bs cs = true → charListLe as cs = true
  | [], _, cs, _, _ => by cases cs <;> rfl
  | a :: as, [], _, h1, _ => by simp [charListLe] at h1
  | a :: as, b :: bs, [], _, h2 => by simp [charListLe] at h2
  | a :: as, b :: bs, c :: cs, h1, h2 => by
    by_cases hab : a < b
    · by_cases hbc : b < c
      · simp [charListLe, lt_trans hab hbc]
      · by_cases hcb : c < b
        · simp [charListLe, hbc, hcb] at h2
        · have hbc' : b = c := le_antisymm (not_lt.mp hcb) (not_lt.mp hbc)
          subst hbc'
          simp [charListLe, hab]
    · by_cases hba : b < a
      · simp [charListLe, hab, hba] at h1
      · have hab' : a = b := le_antisymm (not_lt.mp hba) (not_lt.mp hab)
        subst hab'
        simp only [charListLe, lt_irrefl, if_false, ite_false] at h1
        by_cases hac : a < c
        · simp [charListLe, hac]
        · by_cases hca : c < a
          · simp [charListLe, hac, hca] at h2
          · have hac' : a = c := le_antisymm (not_lt.mp hca) (not_lt.mp hac)
            subst hac'
            simp only [charListLe, lt_irrefl, if_false, ite_false] at h2 ⊢
            exact charListLe_trans as bs cs h1 h2

lemma charListLe_antisymm : ∀ (as bs : List Char),
    charListLe as bs = true → charListLe bs as = true → as = bs
  | [], [], _, _ => rfl
  | [], _ :: _, _, h2 => by simp [charListLe] at h2
  | _ :: _, [], h1, _ => by simp [charListLe] at h1
  | a :: as, b :: bs, h1, h2 => by
    by_cases hab : a < b
    · simp [charListLe, hab, asymm hab] at h2
    · by_cases hba : b < a
      · simp [charListLe, hab, hba] at h1
      · have hab' : a = b := le_antisymm (not_lt.mp hba) (not_lt.mp hab)
        subst hab'
        simp only [charListLe, lt_irrefl, if_false, ite_false] at h1 h2
        rw [charListLe_antisymm as bs h1 h2]

instance : IsTotal String (fun a b => strLe a b = true) :=
  ⟨fun a b => charListLe_total a.data b.data⟩

instance : IsTrans String (fun a b => strLe a b = true) :=
  ⟨fun a b c h1 h2 => charListLe_trans a.data b.data c.data h1 h2⟩

instance : IsAntisymm String (fun a b => strLe a b = true) :=
  ⟨fun a b h1 h2 => by
    have h := charListLe_antisymm a.data b.data h1 h2
    cases a; cases b
    exact congrArg String.mk h⟩

instance : IsTotal (String × String) (fun a b : String × String => strLe a.1 b.1 = true) :=
  ⟨fun a b => charListLe_total a.1.data b.1.data⟩

instance : IsTrans (String × String) (fun a b : String × String => strLe a.1 b.1 = true) :=
  ⟨fun a b c h1 h2 => charListLe_trans a.1.data b.1.data c.1.data h1 h2⟩

/-! ## Lookup and rendering lemmas for the env writer -/

lemma lookupKV_perm {l1 l2 : List (String × String)} (h : l1.Perm l2) :
    (l1.map Prod.fst).Nodup → ∀ k, lookupKV k l1 = lookupKV k l2 := by
  induction h with
  | nil => intro _ _; rfl
  | cons x h ih =>
    intro nd k
    simp only [List.map_cons, List.nodup_cons] at nd
    cases hx : x.1 == k with
    | true => simp [lookupKV, List.find?, hx]
    | false =>
      simp only [lookupKV, List.find?, hx]
      exact ih nd.2 k
  | swap x y l =>
    intro nd k
    simp only [List.map_cons, List.nodup_cons, List.mem_cons] at nd
    have hyx : y.1 ≠ x.1 := fun he => nd.1 (Or.inl he)
    cases hy : y.1 == k with
    | true =>
      have hx : (x.1 == k) = false := by
        rw [beq_iff_eq] at hy
        rw [beq_eq_false_iff_ne]
        intro he
        exact hyx (hy.trans he.symm)
      simp [lookupKV, List.find?, hx, hy]
    | false =>
      cases hx : x.1 == k with
      | true => simp [lookupKV, List.find?, hx, hy]
      | false => simp [lookupKV, List.find?, hx, hy]
  | trans h1 h2 ih1 ih2 =>
    intro nd k
    have nd2 := (h1.map Prod.fst).nodup nd
    rw [ih1 nd k, ih2 nd2 k]

lemma lookupKV_of_mem : ∀ {l : List (String × String)} {kv : String × String},
    (l.map Prod.fst).Nodup → kv ∈ l → lookupKV kv.1 l = kv.2 := by
  intro l
  induction l with
  | nil => intro kv _ h; simp at h
  | cons x l ih =>
    intro kv nd hm
    simp only [List.map_cons, List.nodup_cons] at nd
    rcases List.mem_cons.mp hm with h | h
    · subst h
      simp [lookupKV, List.find?]
    · have hne : (x.1 == kv.1) = false := by
        rw [beq_eq_false_iff_ne]
        intro hb
        exact nd.1 (by rw [hb]; exact List.mem_map_of_mem Prod.fst h)
      simp only [lookupKV, List.find?, hne]
      exact ih nd.2 h

lemma foldl_render_lookup (l : List (String × String)) :
    ∀ (ps : List (String × String)) (acc : String),
    (∀ kv ∈ ps, lookupKV kv.1 l = kv.2) →
    (ps.map Prod.fst).foldl (fun acc k => acc ++ k ++ "=" ++ lookupKV k l ++ "\n") acc =
      ps.foldl (fun acc kv => acc ++ kv.1 ++ "=" ++ kv.2 ++ "\n") acc := by
  intro ps
  induction ps with
  | nil => intro _ _; rfl
  | cons p ps ih =>
    intro acc hall
    simp only [List.map_cons, List.foldl_cons, hall p (by simp)]
    exact ih _ (fun kv hkv => hall kv (by simp [hkv]))

lemma foldl_render_ext (f g : String → String) (hfg : ∀ k, f k = g k) :
    ∀ (ks : List String) (acc : String),
    ks.foldl (fun acc k => acc ++ k ++ "=" ++ f k ++ "\n") acc =
      ks.foldl (fun acc k => acc ++ k ++ "=" ++ g k ++ "\n") acc := by
  intro ks
  induction ks with
  | nil => intro _; rfl
  | cons k ks ih =>
    intro acc
    simp only [List.foldl_cons, hfg k]
    exact ih _

lemma orderedInsert_map_fst (x : String × String) :
    ∀ (l : List (String × String)),
    (List.orderedInsert (fun a b : String × String => strLe a.1 b.1 = true) x l).map Prod.fst =
      List.orderedInsert (fun a b => strLe a b = true) x.1 (l.map Prod.fst) := by
  intro l
  induction l with
  | nil => rfl
  | cons y l ih =>
    by_cases h : strLe x.1 y.1 = true
    · simp [List.orderedInsert, h]
    · simp [List.orderedInsert, h, ih]

lemma sortPairsByKey_map_fst (l : List (String × String)) :
    (sortPairsByKey l).map Prod.fst = sortStrings (l.map Prod.fst) := by
  unfold sortPairsByKey sortStrings
  induction l with
  | nil => rfl
  | cons x l ih =>
    simp only [List.insertionSort, List.map_cons]
    rw [orderedInsert_map_fst, ih]

lemma renderEnvContent_eq_sorted_pairs (l : List (String × String))
    (nd : (l.map Prod.fst).Nodup) :
    renderEnvContent l = renderPairs (sortPairsByKey l) := by
  unfold renderEnvContent renderPairs
  rw [← sortPairsByKey_map_fst]
  exact foldl_render_lookup l (sortPairsByKey l) ""
    (fun kv hkv => lookupKV_of_mem nd
      ((List.perm_insertionSort _ l).mem_iff.mp hkv))

lemma renderEnvContent_perm {l1 l2 : List (String × String)} (h : l1.Perm l2)
    (nd : (l1.map Prod.fst).Nodup) :
    renderEnvContent l1 = renderEnvContent l2 := by
  unfold renderEnvContent
  have hkeys : sortStrings (l1.map Prod.fst) = sortStrings (l2.map Prod.fst) := by
    refine List.eq_of_perm_of_sorted
      ((List.perm_insertionSort _ _).trans ((h.map Prod.fst).trans
        (List.perm_insertionSort _ _).symm))
      (List.sorted_insertionSort _ _) (List.sorted_insertionSort _ _)
  rw [hkeys]
  exact foldl_render_ext _ _ (lookupKV_perm h nd) _ ""

/-- C7 witness: a concrete successful create followed by the conflicting
second create. -/
theorem C7_witness :
    serviceCreate "/srv" ⟨"alpha", "u", "b"⟩ ⟨true, true, true, true, true, true, true⟩
      ⟨["/srv/alpha/repo", "/srv/alpha", "/srv"],
        [("/srv/alpha/service_definition.json", .svc ⟨"alpha", "u", "b"⟩)]⟩ =
      (.error .conflict,
        ⟨["/srv/alpha/repo", "/srv/alpha", "/srv"],
          [("/srv/alpha/service_definition.json", .svc ⟨"alpha", "u", "b"⟩)]⟩, false) :=
  (C7_second_create_conflicts "/srv" ⟨"alpha", "u", "b"⟩
    ⟨true, true, true, true, true, true, true⟩ ⟨true, true, true, true, true, true, true⟩
    ⟨["/srv"], []⟩ _ true (by rfl)).1

/-- C10: the env writer rejects an empty `dir` or `fileName`; an empty
`envVars` map succeeds without writing; over an existing directory a
non-empty map writes exactly the `key=value\n` lines in ascending
lexicographic key order; and the output depends only on the map (it is
invariant under the iteration order of the Go map, so repeated calls
with the same `envVars` produce byte-identical content). -/
theorem C10_env_writer_deterministic :
    (∀ (st : EnvState) (f : String) (vars : List (String × String)),
      WriteEnvFile st "" f vars = .err "path cannot be empty") ∧
    (∀ (st : EnvState) (d : String) (vars : List (String × String)), d ≠ "" →
      WriteEnvFile st d "" vars = .err "envFile cannot be empty") ∧
    (∀ (st : EnvState) (d f : String), d ≠ "" → f ≠ "" →
      WriteEnvFile st d f [] = .okNoWrite) ∧
    (∀ (st : EnvState) (d f : String) (vars : List (String × String)),
      d ≠ "" → f ≠ "" → vars ≠ [] → st.ctxCanceled = false →
      st.dirExists = true → st.dirIsDir = true → st.writeOk = true →
      (vars.map Prod.fst).Nodup →
      WriteEnvFile st d f vars = .okWrote (renderPairs (sortPairsByKey vars))) ∧
    (∀ (st : EnvState) (d f : String) (vars₁ vars₂ : List (String × String)),
      vars₁.Perm vars₂ → (vars₁.map Prod.fst).Nodup →
      WriteEnvFile st d f vars₁ = WriteEnvFile st d f vars₂) := by
  refine ⟨?_, ?_, ?_, ?_, ?_⟩
  · intro st f vars
    unfold WriteEnvFile
    simp
  · intro st d vars hd
    unfold WriteEnvFile
    simp [hd]
  · intro st d f hd hf
    unfold WriteEnvFile
    simp [hd, hf]
  · intro st d f vars hd hf hv hctx hde hdd hw nd
    unfold WriteEnvFile
    simp only [beq_iff_eq, hd, hf, if_false, List.isEmpty_eq_true, hv, hctx,
      hde, hdd, hw, Bool.not_true, Bool.not_false, Bool.false_eq_true, if_true,
      ite_false, ite_true]
    rw [renderEnvContent_eq_sorted_pairs vars nd]
  · intro st d f vars₁ vars₂ hperm nd
    unfold WriteEnvFile
    have hempty : vars₁.isEmpty = vars₂.isEmpty := by
      cases vars₁ with
      | nil => rw [hperm.nil_eq]
      | cons x l =>
        cases vars₂ with
        | nil => exact absurd hperm.symm.nil_eq (by simp)
        | cons y m => rfl
    rw [hempty, renderEnvContent_perm hperm nd]

/-- C10 witness: keys `b`, `a` (in map order) render sorted as
`a=1\nb=2\n`. -/
theorem C10_witness :
    WriteEnvFile ⟨false, true, true, true⟩ "d" "f" [("b", "2"), ("a", "1")] =
      .okWrote "a=1\nb=2\n" := by
  have h := C10_env_writer_deterministic.2.2.2.1
    ⟨false, true, true, true⟩ "d" "f" [("b", "2"), ("a", "1")]
    (by decide) (by decide) (by decide) rfl rfl rfl rfl (by decide)
  rw [h]
  rfl

end DeploymentService
